import Mathlib

/-!
Shallow embedding of the workspace-group membership / role-binding engine of
the identity service (`spaceone/identity/service/workspace_group_service.py`),
together with as much of its environment (persistence rows, user directory,
role catalogue, role-binding store) as the service code touches.

Records are embedded as structures over `String` fields, the database as
explicit lists of rows, and each service operation as a state-passing function
returning `Except (SvcError × DbState) DbState`: a raised error carries the
state at raise time, so "no mutation happened before the error" is expressible
as the error state being the input state.
-/

set_option maxHeartbeats 1000000

/-- A member entry embedded in `WorkspaceGroup.users`
(model class `WorkspaceGroupUser`). -/
structure WorkspaceGroupUser where
  user_id : String
  role_id : String
  role_type : String
  deriving DecidableEq, Repr

/-- An incoming `{user_id, role_id}` dict in the `users` parameter of
`add_users`. -/
structure AddUserInput where
  user_id : String
  role_id : String
  deriving DecidableEq, Repr

/-- A role-binding row (`RoleBinding` model).  `workspace_group_id` is
nullable and set only when the binding originates from a workspace group. -/
structure RoleBinding where
  user_id : String
  role_id : String
  role_type : String
  resource_group : String
  workspace_group_id : Option String
  workspace_id : String
  domain_id : String
  deriving DecidableEq, Repr

/-- The slice of a `Workspace` row this engine reads and writes. -/
structure Workspace where
  workspace_id : String
  domain_id : String
  workspace_group_id : Option String
  user_count : Nat
  deriving DecidableEq, Repr

/-- The slice of a directory `User` row this engine reads. -/
structure DirectoryUser where
  user_id : String
  domain_id : String
  name : String
  state : String
  deriving DecidableEq, Repr

/-- The slice of a `Role` row this engine reads. -/
structure Role where
  role_id : String
  domain_id : String
  role_type : String
  deriving DecidableEq, Repr

/-- A `WorkspaceGroup` row: identity plus the ordered member list. -/
structure WorkspaceGroup where
  workspace_group_id : String
  domain_id : String
  users : List WorkspaceGroupUser
  deriving DecidableEq, Repr

/-- The persistent state the engine operates on. -/
structure DbState where
  groups : List WorkspaceGroup
  role_bindings : List RoleBinding
  workspaces : List Workspace
  dir_users : List DirectoryUser
  roles : List Role
  deriving DecidableEq, Repr

/-- The typed errors raised by the service (plus `typeError` for the Python
`TypeError` raised when `WorkspaceGroupResponse(**None)` unpacks `None`). -/
inductive SvcError where
  | notFound
  | invalidParameter
  | notAllowedRoleType
  | notAllowedUserState
  | typeError
  deriving DecidableEq, Repr

/-- A member entry after the read-time enrichment join: `user_name` and
`state` are attached from the directory, never persisted. -/
structure EnrichedMember where
  user_id : String
  role_id : String
  role_type : String
  user_name : String
  state : String
  deriving DecidableEq, Repr

/-- Embeds `list(set(xs))` over identifier lists.  Python set order is unspecified;
we keep first occurrences, and only membership and distinctness of the result
are ever relied on. -/
def dedup_ids : List String → List String
  | [] => []
  | x :: xs => x :: (dedup_ids xs).filter (fun y => decide (y ≠ x))

/-- Embeds `MongoModel.get` for `WorkspaceGroup` (first row matching the unique key
`(workspace_group_id, domain_id)`). -/
def find_workspace_group (s : DbState) (wg dom : String) : Option WorkspaceGroup :=
  s.groups.find? (fun g => decide (g.workspace_group_id = wg ∧ g.domain_id = dom))

/-- Embeds `MongoModel.get` for a directory `User`. -/
def find_user (s : DbState) (uid dom : String) : Option DirectoryUser :=
  s.dir_users.find? (fun u => decide (u.user_id = uid ∧ u.domain_id = dom))

/-- Embeds `MongoModel.get` for `Role`. -/
def find_role (s : DbState) (rid dom : String) : Option Role :=
  s.roles.find? (fun r => decide (r.role_id = rid ∧ r.domain_id = dom))

/-- Embeds `user_mgr.filter_users(user_id=ids, domain_id=dom)`. -/
def filter_users (s : DbState) (ids : List String) (dom : String) : List DirectoryUser :=
  s.dir_users.filter (fun u => decide (u.user_id ∈ ids ∧ u.domain_id = dom))

/-- Modelled from the spec: `workspace_group_mgr.get_unique_user_ids`
(the workspace-group manager file is not part of the given sources; only its
callers are).  Per spec section 4.2 it is the gate used before both the add
and the remove flow: from the incoming entries and the group's current
persisted member list it produces the deduplicated ids of the current members
(`old_user_ids`) and the deduplicated incoming ids (`new_user_ids`); the
sibling checks below compare the two sets, and sections 4.3/4.4 use the
second component as the add/remove target set.  Looking up the group fails
with `notFound` when the group does not exist. -/
def get_unique_user_ids (s : DbState) (input_ids : List String) (wg dom : String) :
    Except SvcError (List String × List String) :=
  match find_workspace_group s wg dom with
  | none => .error .notFound
  | some g => .ok (dedup_ids (g.users.map (fun u => u.user_id)), dedup_ids input_ids)

/-- Modelled from the spec: `workspace_group_mgr.check_new_users_already_in_workspace_group`
(manager file not part of the given sources).  Spec section 4.3 step 1: for
add, any incoming id already present among the current members is a conflict
(`InvalidParameter`, "already in workspace group"). -/
def check_new_users_already_in_workspace_group (old_ids new_ids : List String) :
    Except SvcError Unit :=
  if ∃ x ∈ new_ids, x ∈ old_ids then .error .invalidParameter else .ok ()

/-- Modelled from the spec: `workspace_group_mgr.check_user_ids_exist_in_workspace_group`
(manager file not part of the given sources).  Spec section 4.4 step 1: for
remove, any target id absent from the current member set is `NotFound`. -/
def check_user_ids_exist_in_workspace_group (old_ids target_ids : List String) :
    Except SvcError Unit :=
  if ∃ x ∈ target_ids, x ∉ old_ids then .error .notFound else .ok ()

/-- Modelled from the spec: `workspace_group_mgr.update_workspace_group_by_vo`
restricted to the only field these flows write, the `users` list (generic
single-document update of the group record; spec treats persistence
primitives as external collaborators). -/
def update_workspace_group_users (s : DbState) (wg dom : String)
    (new_users : List WorkspaceGroupUser) : DbState :=
  { s with groups := s.groups.map (fun g =>
      if g.workspace_group_id = wg ∧ g.domain_id = dom then
        { g with users := new_users } else g) }

/-- Embeds `check_new_users_exist_in_domain` (service, verbatim): the filtered user
count must equal the number of requested new users, else `NotFound`. -/
def check_new_users_exist_in_domain (s : DbState) (new_ids : List String) (dom : String) :
    Except SvcError Unit :=
  if (filter_users s new_ids dom).length = new_ids.length then .ok ()
  else .error .notFound

/-- Python dict insertion (last write wins) for the role map. -/
def dict_insert (m : List (String × String)) (k v : String) : List (String × String) :=
  (m.filter (fun p => decide (p.1 ≠ k))) ++ [(k, v)]

/-- Embeds `get_role_map` (service, verbatim): resolve each requested `role_id` to
its role type among the two acceptable types; any id that does not resolve is
`InvalidParameter`. -/
def get_role_map (s : DbState) (users : List AddUserInput) (dom : String) :
    Except SvcError (List (String × String)) :=
  let role_ids := dedup_ids (users.map (fun u => u.role_id))
  let role_vos := s.roles.filter (fun r =>
    decide (r.role_id ∈ role_ids ∧ r.domain_id = dom ∧
      (r.role_type = "WORKSPACE_OWNER" ∨ r.role_type = "WORKSPACE_MEMBER")))
  let role_map := role_vos.foldl (fun m r => dict_insert m r.role_id r.role_type) []
  if ∃ rid ∈ role_ids, (role_map.lookup rid).isNone then .error .invalidParameter
  else .ok role_map

/-- Embeds `get_workspace_ids` (service, verbatim): ids of the workspaces currently
in the group. -/
def get_workspace_ids (s : DbState) (wg dom : String) : List String :=
  (s.workspaces.filter (fun w =>
    decide (w.workspace_group_id = some wg ∧ w.domain_id = dom))).map
    (fun w => w.workspace_id)

/-- Embeds `delete_workspace_users_role_binding` (service, verbatim): delete every
role-binding of the incoming users across the group's workspaces in this
domain, with no owner restriction. -/
def delete_workspace_users_role_binding (s : DbState) (new_ids ws_ids : List String)
    (dom : String) : DbState :=
  { s with role_bindings := s.role_bindings.filter (fun b =>
      decide (¬(b.user_id ∈ new_ids ∧ b.workspace_id ∈ ws_ids ∧ b.domain_id = dom))) }

/-- Modelled from the spec: `rb_svc.create_role_binding` (the role-binding
service file is not part of the given sources).  Per the spec's Role-Binding
Store interface it creates one binding row carrying exactly the fields the
caller passes — user, role, resolved role type, `WORKSPACE` resource group,
owning `workspace_group_id`, workspace and domain — and returns the row. -/
def create_role_binding (user_id role_id role_type wg ws dom : String) : RoleBinding :=
  { user_id := user_id, role_id := role_id, role_type := role_type,
    resource_group := "WORKSPACE", workspace_group_id := some wg,
    workspace_id := ws, domain_id := dom }

/-- The fold state of `add_users_to_workspace_group`: the
`workspace_group_new_users_info_list`, the `unique_user_ids` set (kept as a
list, membership only), and the role-binding rows created so far. -/
structure AddAcc where
  infos : List WorkspaceGroupUser
  uniq : List String
  rbs : List RoleBinding
  deriving DecidableEq, Repr

/-- The inner closure `add_user` of `add_users_to_workspace_group` (service,
verbatim): skip the user when its id was already processed; otherwise resolve
the role type from the role map, create a role-binding when a workspace id is
given, and record the member entry and the processed id. -/
def add_user (role_map : List (String × String)) (wg dom : String)
    (acc : AddAcc) (ui : AddUserInput) (wsid : Option String) : AddAcc :=
  if ui.user_id ∈ acc.uniq then acc
  else
    let role_type := (role_map.lookup ui.role_id).getD ""
    let user_data : WorkspaceGroupUser :=
      { user_id := ui.user_id, role_id := ui.role_id, role_type := role_type }
    match wsid with
    | some w =>
      let rb := create_role_binding ui.user_id ui.role_id role_type wg w dom
      { infos := acc.infos ++ [user_data], uniq := acc.uniq ++ [ui.user_id],
        rbs := acc.rbs ++ [rb] }
    | none =>
      { infos := acc.infos ++ [user_data], uniq := acc.uniq ++ [ui.user_id],
        rbs := acc.rbs }

/-- One pass of the inner loop of `add_users_to_workspace_group` over the
incoming user list, for one workspace id (or none). -/
def add_user_pass (role_map : List (String × String)) (wg dom : String)
    (users : List AddUserInput) (wsid : Option String) (acc : AddAcc) : AddAcc :=
  users.foldl (fun a u => add_user role_map wg dom a u wsid) acc

/-- Embeds `add_users_to_workspace_group` (service, verbatim): when the group has
workspaces, loop over each workspace and each incoming user; otherwise one
pass with no workspace.  Returns the new member entries and the created
role-binding rows. -/
def add_users_to_workspace_group (users : List AddUserInput)
    (role_map : List (String × String)) (ws_ids : List String) (wg dom : String) :
    List WorkspaceGroupUser × List RoleBinding :=
  let init : AddAcc := { infos := [], uniq := [], rbs := [] }
  let fin :=
    if ws_ids ≠ [] then
      ws_ids.foldl (fun acc w => add_user_pass role_map wg dom users (some w) acc) init
    else
      add_user_pass role_map wg dom users none init
  (fin.infos, fin.rbs)

/-- Embeds `get_users_info_list` (service, verbatim): the group's existing entries
followed by the entries produced by `add_users_to_workspace_group`. -/
def get_users_info_list (users : List AddUserInput) (role_map : List (String × String))
    (ws_ids : List String) (g : WorkspaceGroup) (dom : String) :
    List WorkspaceGroupUser :=
  g.users ++ (add_users_to_workspace_group users role_map ws_ids g.workspace_group_id dom).1

/-- The `user_info_map` built inside `add_user_name_and_state_to_users`:
python dict keyed by `user_id` holding `(name, state)`. -/
def create_user_info_map (rows : List DirectoryUser) : List (String × String × String) :=
  rows.foldl (fun m u =>
    (m.filter (fun p => decide (p.1 ≠ u.user_id))) ++ [(u.user_id, u.name, u.state)]) []

/-- Embeds `add_user_name_and_state_to_users` (service, verbatim): join name/state
onto a transient copy of each member entry; a directory miss yields empty
strings.  When the member list is empty the function falls through without a
`return` statement, i.e. produces `None`. -/
def add_user_name_and_state_to_users (s : DbState) (ids : List String)
    (g : WorkspaceGroup) (dom : String) : Option (List EnrichedMember) :=
  let user_info_map := create_user_info_map (filter_users s ids dom)
  if g.users ≠ [] then
    some (g.users.map (fun u =>
      let info := (user_info_map.lookup u.user_id).getD ("", "")
      { user_id := u.user_id, role_id := u.role_id, role_type := u.role_type,
        user_name := info.1, state := info.2 }))
  else none

/-- Embeds `add_users` / `process_add_users` (service, verbatim; this embedding
covers the `add_users` API, whose caller role type is `DOMAIN_ADMIN`, so the
self-service `USER` branch is not taken).  Order of effects as in the source:
dedup gate, conflict check, directory existence check, group fetch, role map,
workspace fan-out discovery, stale-binding sweep (only when the group has
workspaces), member/binding creation, group update, response enrichment.
A raised error carries the state at raise time. -/
def add_users (s : DbState) (wg dom : String) (users : List AddUserInput) :
    Except (SvcError × DbState) DbState :=
  match get_unique_user_ids s (users.map (fun u => u.user_id)) wg dom with
  | .error e => .error (e, s)
  | .ok (old_ids, new_ids) =>
    match check_new_users_already_in_workspace_group old_ids new_ids with
    | .error e => .error (e, s)
    | .ok _ =>
      match check_new_users_exist_in_domain s new_ids dom with
      | .error e => .error (e, s)
      | .ok _ =>
        match find_workspace_group s wg dom with
        | none => .error (.notFound, s)
        | some g =>
          match get_role_map s users dom with
          | .error e => .error (e, s)
          | .ok role_map =>
            let ws_ids := get_workspace_ids s wg dom
            let s1 :=
              if ws_ids ≠ [] then
                delete_workspace_users_role_binding s new_ids ws_ids dom
              else s
            let added := add_users_to_workspace_group users role_map ws_ids wg dom
            let users_info := g.users ++ added.1
            let s2 := { s1 with role_bindings := s1.role_bindings ++ added.2 }
            let s3 := update_workspace_group_users s2 wg dom users_info
            match add_user_name_and_state_to_users s3 (old_ids ++ new_ids)
                { g with users := users_info } dom with
            | some _ => .ok s3
            | none => .error (.typeError, s3)

/-- The role-bindings kept by the group-wide deletion sweep of
`remove_users_from_workspace_group`: every binding of a target user owned by
this group in this domain is dropped, with no workspace restriction. -/
def kept_role_bindings (bindings : List RoleBinding) (user_ids : List String)
    (wg dom : String) : List RoleBinding :=
  bindings.filter (fun b =>
    decide (¬(b.user_id ∈ user_ids ∧ b.workspace_group_id = some wg ∧ b.domain_id = dom)))

/-- The `stat_role_bindings` distinct-user aggregation: the distinct
`user_id`s among the bindings scoped to one workspace and domain. -/
def distinct_user_rb_ids (bindings : List RoleBinding) (wsid dom : String) : List String :=
  dedup_ids ((bindings.filter (fun b =>
    decide (b.workspace_id = wsid ∧ b.domain_id = dom))).map (fun b => b.user_id))

/-- Write `cnt` into the `user_count` of a workspace row when its key
matches, else leave the row alone. -/
def ws_set_count (wsid dom : String) (cnt : Nat) (w : Workspace) : Workspace :=
  if w.workspace_id = wsid ∧ w.domain_id = dom then { w with user_count := cnt } else w

/-- Embeds `workspace_mgr.update_workspace_by_vo` applied to the row(s) with the
given key, writing the recomputed `user_count` (the manager delegates to the
generic single-row update; `(workspace_id, domain_id)` is the row key). -/
def update_workspace_by_vo (s : DbState) (wsid dom : String) (cnt : Nat) : DbState :=
  { s with workspaces := s.workspaces.map (ws_set_count wsid dom cnt) }

/-- Embeds `remove_users_from_workspace_group` (service, verbatim): group-wide
deletion sweep of the target users' group-owned bindings, then the filtered
member list, then the `user_count` recompute — for every workspace currently
in the group when no `workspace_id` was supplied, else for that workspace
alone (when it exists).  Each recompute reads the binding store as it is at
that point of the loop. -/
def remove_users_from_workspace_group (s : DbState) (user_ids : List String)
    (old_users : List WorkspaceGroupUser) (wg dom : String) (wsid? : Option String) :
    List WorkspaceGroupUser × DbState :=
  let s1 := { s with role_bindings := kept_role_bindings s.role_bindings user_ids wg dom }
  let updated_users := old_users.filter (fun u => decide (u.user_id ∉ user_ids))
  let s2 :=
    match wsid? with
    | none =>
      let targets := s1.workspaces.filter (fun w =>
        decide (w.workspace_group_id = some wg ∧ w.domain_id = dom))
      targets.foldl (fun st w =>
        update_workspace_by_vo st w.workspace_id dom
          (distinct_user_rb_ids st.role_bindings w.workspace_id dom).length) s1
    | some wsid =>
      match s1.workspaces.find? (fun w =>
          decide (w.workspace_id = wsid ∧ w.domain_id = dom)) with
      | some w =>
        update_workspace_by_vo s1 w.workspace_id dom
          (distinct_user_rb_ids s1.role_bindings w.workspace_id dom).length
      | none => s1
  (updated_users, s2)

/-- Embeds `remove_users` (service, verbatim): dedup gate, membership check, group
fetch, then the helper above, then the group update with the filtered member
list. -/
def remove_users (s : DbState) (wg dom : String) (ids : List String)
    (wsid? : Option String) : Except (SvcError × DbState) DbState :=
  match get_unique_user_ids s ids wg dom with
  | .error e => .error (e, s)
  | .ok (old_ids, user_ids) =>
    match check_user_ids_exist_in_workspace_group old_ids user_ids with
    | .error e => .error (e, s)
    | .ok _ =>
      match find_workspace_group s wg dom with
      | none => .error (.notFound, s)
      | some g =>
        let r := remove_users_from_workspace_group s user_ids g.users wg dom wsid?
        .ok (update_workspace_group_users r.2 wg dom r.1)

/-- Embeds `check_user_state` (service, verbatim). -/
def user_state_not_allowed (st : String) : Bool :=
  decide (st = "DISABLED" ∨ st = "DELETED")

/-- Embeds `check_role_type` (service, verbatim). -/
def role_type_not_allowed (rt : String) : Bool :=
  decide (¬(rt = "WORKSPACE_OWNER" ∨ rt = "WORKSPACE_MEMBER"))

/-- Embeds `update_user_role_of_workspace_group` (service, verbatim): patch every
role-binding of this user owned by this group in this domain in place with
the new role id and role type. -/
def update_user_role_of_workspace_group (s : DbState) (rid rt uid wg dom : String) :
    DbState :=
  { s with role_bindings := s.role_bindings.map (fun b =>
      if b.user_id = uid ∧ b.workspace_group_id = some wg ∧ b.domain_id = dom then
        { b with role_id := rid, role_type := rt } else b) }

/-- The member-list patch loop of `update_role` (service, verbatim): patch the
first entry whose `user_id` matches, then stop. -/
def patch_user_role (users : List WorkspaceGroupUser) (uid rid rt : String) :
    List WorkspaceGroupUser :=
  match users with
  | [] => []
  | u :: rest =>
    if u.user_id = uid then { u with role_id := rid, role_type := rt } :: rest
    else u :: patch_user_role rest uid rid rt

/-- Embeds `update_role` (service, verbatim): group fetch, user fetch, user-state
gate, role fetch, role-type gate, binding patch, member-list patch, group
update.  Errors carry the state at raise time (all of them fire before any
mutation). -/
def update_role (s : DbState) (wg dom uid rid : String) :
    Except (SvcError × DbState) DbState :=
  match find_workspace_group s wg dom with
  | none => .error (.notFound, s)
  | some g =>
    match find_user s uid dom with
    | none => .error (.notFound, s)
    | some u =>
      if user_state_not_allowed u.state then .error (.notAllowedUserState, s)
      else
        match find_role s rid dom with
        | none => .error (.notFound, s)
        | some role =>
          if role_type_not_allowed role.role_type then .error (.notAllowedRoleType, s)
          else
            let s1 := update_user_role_of_workspace_group s rid role.role_type uid wg dom
            .ok (update_workspace_group_users s1 wg dom
              (patch_user_role g.users uid rid role.role_type))

/-- Embeds `get` (service, verbatim): fetch the group, collect the enrichment id
list through the dedup gate when the member list is non-empty, enrich; when
the enrichment produced `None`, constructing the response raises
(`typeError`).  Read-only. -/
def get_workspace_group_info (s : DbState) (wg dom : String) :
    Except SvcError (List EnrichedMember) :=
  match find_workspace_group s wg dom with
  | none => .error .notFound
  | some g =>
    let ids? : Except SvcError (List String) :=
      if g.users ≠ [] then
        match get_unique_user_ids s (g.users.map (fun u => u.user_id)) wg dom with
        | .error e => .error e
        | .ok (old_ids, new_ids) => .ok (old_ids ++ new_ids)
      else .ok []
    match ids? with
    | .error e => .error e
    | .ok ids =>
      match add_user_name_and_state_to_users s ids g dom with
      | some enriched => .ok enriched
      | none => .error .typeError

/-- One mutation request against a fixed group and domain. -/
inductive GroupOp where
  | addOp (users : List AddUserInput)
  | removeOp (ids : List String) (wsid? : Option String)
  | updateRoleOp (uid rid : String)
  deriving DecidableEq, Repr

/-- Dispatch one request to the corresponding service operation. -/
def apply_op (s : DbState) (wg dom : String) : GroupOp → Except (SvcError × DbState) DbState
  | .addOp users => add_users s wg dom users
  | .removeOp ids wsid? => remove_users s wg dom ids wsid?
  | .updateRoleOp uid rid => update_role s wg dom uid rid

/-- Run a sequence of requests, stopping at the first error. -/
def run_ops (s : DbState) (wg dom : String) : List GroupOp → Except (SvcError × DbState) DbState
  | [] => .ok s
  | op :: rest =>
    match apply_op s wg dom op with
    | .ok s' => run_ops s' wg dom rest
    | .error e => .error e

/-- The role-bindings of one user owned by one group in one domain — the rows
swept by removal. -/
def group_owned_bindings_for (s : DbState) (uid wg dom : String) : List RoleBinding :=
  s.role_bindings.filter (fun b =>
    decide (b.user_id = uid ∧ b.workspace_group_id = some wg ∧ b.domain_id = dom))

/-!  ## Lemmas about the `add_user` fold  -/

/-- The member entry `add_user` records for one incoming user: its id, its
role id, and the role type resolved from the role map. -/
def mk_member (role_map : List (String × String)) (u : AddUserInput) : WorkspaceGroupUser :=
  { user_id := u.user_id, role_id := u.role_id,
    role_type := (role_map.lookup u.role_id).getD "" }

/-- Invariant of the `add_user` fold: the processed-id set is exactly the ids
of the recorded entries, in order. -/
def AddAcc.wf (acc : AddAcc) : Prop :=
  acc.uniq = acc.infos.map (fun m => m.user_id)

theorem add_user_pass_cons (rm : List (String × String)) (wg dom : String)
    (u : AddUserInput) (us : List AddUserInput) (wsid : Option String) (acc : AddAcc) :
    add_user_pass rm wg dom (u :: us) wsid acc =
      add_user_pass rm wg dom us wsid (add_user rm wg dom acc u wsid) := rfl

theorem add_user_skip (rm : List (String × String)) (wg dom : String) (acc : AddAcc)
    (ui : AddUserInput) (wsid : Option String) (h : ui.user_id ∈ acc.uniq) :
    add_user rm wg dom acc ui wsid = acc := by
  unfold add_user
  simp [h]

theorem add_user_infos_of_not_mem (rm : List (String × String)) (wg dom : String)
    (acc : AddAcc) (ui : AddUserInput) (wsid : Option String) (h : ui.user_id ∉ acc.uniq) :
    (add_user rm wg dom acc ui wsid).infos = acc.infos ++ [mk_member rm ui] ∧
    (add_user rm wg dom acc ui wsid).uniq = acc.uniq ++ [ui.user_id] := by
  unfold add_user
  cases wsid <;> simp [h, mk_member]

theorem add_user_wf (rm : List (String × String)) (wg dom : String) (acc : AddAcc)
    (ui : AddUserInput) (wsid : Option String) (h : acc.wf) :
    (add_user rm wg dom acc ui wsid).wf := by
  by_cases hm : ui.user_id ∈ acc.uniq
  · rw [add_user_skip rm wg dom acc ui wsid hm]; exact h
  · obtain ⟨h1, h2⟩ := add_user_infos_of_not_mem rm wg dom acc ui wsid hm
    unfold AddAcc.wf at h ⊢
    rw [h1, h2, List.map_append, h]
    simp [mk_member]

theorem add_user_uniq_subset (rm : List (String × String)) (wg dom : String) (acc : AddAcc)
    (ui : AddUserInput) (wsid : Option String) :
    acc.uniq ⊆ (add_user rm wg dom acc ui wsid).uniq := by
  by_cases hm : ui.user_id ∈ acc.uniq
  · rw [add_user_skip rm wg dom acc ui wsid hm]
    exact List.Subset.refl _
  · rw [(add_user_infos_of_not_mem rm wg dom acc ui wsid hm).2]
    exact List.subset_append_left acc.uniq [ui.user_id]

theorem add_user_mem_uniq (rm : List (String × String)) (wg dom : String) (acc : AddAcc)
    (ui : AddUserInput) (wsid : Option String) :
    ui.user_id ∈ (add_user rm wg dom acc ui wsid).uniq := by
  by_cases hm : ui.user_id ∈ acc.uniq
  · rw [add_user_skip rm wg dom acc ui wsid hm]; exact hm
  · rw [(add_user_infos_of_not_mem rm wg dom acc ui wsid hm).2]
    simp

theorem add_user_pass_wf (rm : List (String × String)) (wg dom : String)
    (users : List AddUserInput) (wsid : Option String) :
    ∀ acc : AddAcc, acc.wf → (add_user_pass rm wg dom users wsid acc).wf := by
  induction users with
  | nil => intro acc h; exact h
  | cons u us ih =>
    intro acc h
    rw [add_user_pass_cons]
    exact ih _ (add_user_wf rm wg dom acc u wsid h)

theorem add_user_pass_uniq_subset (rm : List (String × String)) (wg dom : String)
    (users : List AddUserInput) (wsid : Option String) :
    ∀ acc : AddAcc, acc.uniq ⊆ (add_user_pass rm wg dom users wsid acc).uniq := by
  induction users with
  | nil => intro acc; exact List.Subset.refl _
  | cons u us ih =>
    intro acc
    rw [add_user_pass_cons]
    exact (add_user_uniq_subset rm wg dom acc u wsid).trans (ih _)

theorem add_user_pass_uniq_covers (rm : List (String × String)) (wg dom : String)
    (users : List AddUserInput) (wsid : Option String) :
    ∀ acc : AddAcc, ∀ u ∈ users, u.user_id ∈ (add_user_pass rm wg dom users wsid acc).uniq := by
  induction users with
  | nil => intro acc u h; cases h
  | cons v us ih =>
    intro acc u h
    rw [add_user_pass_cons]
    rcases List.mem_cons.mp h with h | h
    · subst h
      exact add_user_pass_uniq_subset rm wg dom us wsid _
        (add_user_mem_uniq rm wg dom acc u wsid)
    · exact ih _ u h

theorem add_user_pass_noop (rm : List (String × String)) (wg dom : String)
    (users : List AddUserInput) (wsid : Option String) :
    ∀ acc : AddAcc, (∀ u ∈ users, u.user_id ∈ acc.uniq) →
      add_user_pass rm wg dom users wsid acc = acc := by
  induction users with
  | nil => intro acc _; rfl
  | cons u us ih =>
    intro acc h
    rw [add_user_pass_cons, add_user_skip rm wg dom acc u wsid (h u (by simp))]
    exact ih acc (fun v hv => h v (by simp [hv]))

theorem fold_pass_noop (rm : List (String × String)) (wg dom : String)
    (users : List AddUserInput) (ws : List String) :
    ∀ acc : AddAcc, (∀ u ∈ users, u.user_id ∈ acc.uniq) →
      ws.foldl (fun a w => add_user_pass rm wg dom users (some w) a) acc = acc := by
  induction ws with
  | nil => intro acc _; rfl
  | cons w rest ih =>
    intro acc h
    rw [List.foldl_cons, add_user_pass_noop rm wg dom users (some w) acc h]
    exact ih acc h

/-- With at least one workspace in the group, every pass after the first is a
no-op: the whole nested loop of `add_users_to_workspace_group` collapses to
the pass over the first workspace. -/
theorem add_users_to_workspace_group_cons (users : List AddUserInput)
    (rm : List (String × String)) (w : String) (rest : List String) (wg dom : String) :
    add_users_to_workspace_group users rm (w :: rest) wg dom =
      ((add_user_pass rm wg dom users (some w) { infos := [], uniq := [], rbs := [] }).infos,
       (add_user_pass rm wg dom users (some w) { infos := [], uniq := [], rbs := [] }).rbs) := by
  unfold add_users_to_workspace_group
  simp only [ne_eq, reduceCtorEq, not_false_eq_true, if_true, List.foldl_cons, if_pos]
  rw [fold_pass_noop rm wg dom users rest _
    (fun u hu => add_user_pass_uniq_covers rm wg dom users (some w) _ u hu)]

theorem add_users_to_workspace_group_nil (users : List AddUserInput)
    (rm : List (String × String)) (wg dom : String) :
    add_users_to_workspace_group users rm [] wg dom =
      ((add_user_pass rm wg dom users none { infos := [], uniq := [], rbs := [] }).infos,
       (add_user_pass rm wg dom users none { infos := [], uniq := [], rbs := [] }).rbs) := by
  unfold add_users_to_workspace_group
  simp

theorem add_user_pass_find (rm : List (String × String)) (wg dom uid : String)
    (users : List AddUserInput) (wsid : Option String) :
    ∀ acc : AddAcc, acc.wf →
    ((add_user_pass rm wg dom users wsid acc).infos).find? (fun m => decide (m.user_id = uid)) =
      (acc.infos.find? (fun m => decide (m.user_id = uid))).or
        ((users.find? (fun u => decide (u.user_id = uid))).map (mk_member rm)) := by
  induction users with
  | nil => intro acc _; simp [add_user_pass]
  | cons u us ih =>
    intro acc hwf
    rw [add_user_pass_cons]
    by_cases hm : u.user_id ∈ acc.uniq
    · rw [add_user_skip rm wg dom acc u wsid hm, ih acc hwf]
      by_cases hu : u.user_id = uid
      · have hsome : (acc.infos.find? (fun m => decide (m.user_id = uid))).isSome := by
          rw [List.find?_isSome]
          have : uid ∈ acc.infos.map (fun m => m.user_id) := by
            rw [← hwf]; rw [← hu]; exact hm
          obtain ⟨m, hmem, hmid⟩ := List.mem_map.mp this
          exact ⟨m, hmem, by simp [hmid]⟩
        obtain ⟨v, hv⟩ := Option.isSome_iff_exists.mp hsome
        rw [hv]
        simp
      · simp [List.find?_cons, hu]
    · have hwf' := add_user_wf rm wg dom acc u wsid hwf
      rw [ih _ hwf', (add_user_infos_of_not_mem rm wg dom acc u wsid hm).1,
        List.find?_append, Option.or_assoc]
      congr 1
      by_cases hu : u.user_id = uid
      · simp [List.find?_cons, mk_member, hu]
      · simp [List.find?_cons, mk_member, hu]

/-!  ## Distinctness of the entries produced by one add  -/

theorem add_user_uniq_nodup (rm : List (String × String)) (wg dom : String) (acc : AddAcc)
    (ui : AddUserInput) (wsid : Option String) (h : acc.uniq.Nodup) :
    (add_user rm wg dom acc ui wsid).uniq.Nodup := by
  by_cases hm : ui.user_id ∈ acc.uniq
  · rw [add_user_skip rm wg dom acc ui wsid hm]; exact h
  · rw [(add_user_infos_of_not_mem rm wg dom acc ui wsid hm).2]
    exact h.append (List.nodup_singleton _) (by
      intro x hx hx'
      rw [List.mem_singleton] at hx'
      exact hm (hx' ▸ hx))

theorem add_user_pass_uniq_nodup (rm : List (String × String)) (wg dom : String)
    (users : List AddUserInput) (wsid : Option String) :
    ∀ acc : AddAcc, acc.uniq.Nodup → (add_user_pass rm wg dom users wsid acc).uniq.Nodup := by
  induction users with
  | nil => intro acc h; exact h
  | cons u us ih =>
    intro acc h
    rw [add_user_pass_cons]
    exact ih _ (add_user_uniq_nodup rm wg dom acc u wsid h)

/-- Every id recorded during a pass either was already recorded or comes from
the incoming user list. -/
theorem add_user_pass_uniq_sources (rm : List (String × String)) (wg dom : String)
    (users : List AddUserInput) (wsid : Option String) :
    ∀ acc : AddAcc, ∀ x ∈ (add_user_pass rm wg dom users wsid acc).uniq,
      x ∈ acc.uniq ∨ x ∈ users.map (fun u => u.user_id) := by
  induction users with
  | nil => intro acc x hx; exact Or.inl hx
  | cons u us ih =>
    intro acc x hx
    rw [add_user_pass_cons] at hx
    rcases ih _ x hx with h | h
    · by_cases hm : u.user_id ∈ acc.uniq
      · rw [add_user_skip rm wg dom acc u wsid hm] at h; exact Or.inl h
      · rw [(add_user_infos_of_not_mem rm wg dom acc u wsid hm).2] at h
        rcases List.mem_append.mp h with h | h
        · exact Or.inl h
        · exact Or.inr (by simp [List.mem_singleton.mp h])
    · exact Or.inr (by simp; right; simpa using h)

/-- The ids of the member entries produced by `add_users_to_workspace_group`
are distinct and all come from the incoming user list. -/
theorem add_users_to_workspace_group_ids (users : List AddUserInput)
    (rm : List (String × String)) (ws_ids : List String) (wg dom : String) :
    ((add_users_to_workspace_group users rm ws_ids wg dom).1.map (fun m => m.user_id)).Nodup ∧
    ∀ x ∈ (add_users_to_workspace_group users rm ws_ids wg dom).1.map (fun m => m.user_id),
      x ∈ users.map (fun u => u.user_id) := by
  have init_wf : (⟨[], [], []⟩ : AddAcc).wf := rfl
  have key : ∀ wsid : Option String,
      ((add_user_pass rm wg dom users wsid ⟨[], [], []⟩).infos.map (fun m => m.user_id)).Nodup ∧
      ∀ x ∈ (add_user_pass rm wg dom users wsid ⟨[], [], []⟩).infos.map (fun m => m.user_id),
        x ∈ users.map (fun u => u.user_id) := by
    intro wsid
    have hwf := add_user_pass_wf rm wg dom users wsid ⟨[], [], []⟩ init_wf
    unfold AddAcc.wf at hwf
    constructor
    · rw [← hwf]
      exact add_user_pass_uniq_nodup rm wg dom users wsid ⟨[], [], []⟩ List.nodup_nil
    · intro x hx
      rw [← hwf] at hx
      rcases add_user_pass_uniq_sources rm wg dom users wsid ⟨[], [], []⟩ x hx with h | h
      · cases h
      · exact h
  cases ws_ids with
  | nil => rw [add_users_to_workspace_group_nil]; exact key none
  | cons w rest => rw [add_users_to_workspace_group_cons]; exact key (some w)

/-!  ## Small state-shape lemmas  -/

theorem find_workspace_group_groups_eq (s t : DbState) (wg dom : String)
    (h : s.groups = t.groups) :
    find_workspace_group s wg dom = find_workspace_group t wg dom := by
  unfold find_workspace_group
  rw [h]

theorem find_workspace_group_update (s : DbState) (wg dom : String)
    (us : List WorkspaceGroupUser) :
    find_workspace_group (update_workspace_group_users s wg dom us) wg dom =
      (find_workspace_group s wg dom).map (fun g => { g with users := us }) := by
  unfold find_workspace_group update_workspace_group_users
  simp only
  induction s.groups with
  | nil => rfl
  | cons g rest ih =>
    by_cases hg : g.workspace_group_id = wg ∧ g.domain_id = dom
    · simp [List.find?_cons, hg]
    · simp only [List.map_cons]
      rw [if_neg hg]
      rw [List.find?_cons, List.find?_cons]
      have : (decide (g.workspace_group_id = wg ∧ g.domain_id = dom)) = false := by
        simp [hg]
      rw [this]
      simpa using ih

theorem mem_dedup_ids (x : String) (l : List String) : x ∈ dedup_ids l ↔ x ∈ l := by
  induction l with
  | nil => simp [dedup_ids]
  | cons y ys ih =>
    by_cases hxy : x = y
    · simp [dedup_ids, hxy]
    · simp [dedup_ids, List.mem_filter, ih, hxy]

theorem update_workspace_by_vo_groups (s : DbState) (wsid dom : String) (cnt : Nat) :
    (update_workspace_by_vo s wsid dom cnt).groups = s.groups := rfl

theorem update_workspace_by_vo_bindings (s : DbState) (wsid dom : String) (cnt : Nat) :
    (update_workspace_by_vo s wsid dom cnt).role_bindings = s.role_bindings := rfl

theorem recompute_fold_groups (ts : List Workspace) (dom : String) :
    ∀ st : DbState,
      (ts.foldl (fun st w => update_workspace_by_vo st w.workspace_id dom
        (distinct_user_rb_ids st.role_bindings w.workspace_id dom).length) st).groups =
      st.groups := by
  induction ts with
  | nil => intro st; rfl
  | cons w rest ih =>
    intro st
    rw [List.foldl_cons, ih]
    rfl

theorem recompute_fold_bindings (ts : List Workspace) (dom : String) :
    ∀ st : DbState,
      (ts.foldl (fun st w => update_workspace_by_vo st w.workspace_id dom
        (distinct_user_rb_ids st.role_bindings w.workspace_id dom).length) st).role_bindings =
      st.role_bindings := by
  induction ts with
  | nil => intro st; rfl
  | cons w rest ih =>
    intro st
    rw [List.foldl_cons, ih]
    rfl

theorem remove_users_from_workspace_group_groups (s : DbState) (user_ids : List String)
    (old_users : List WorkspaceGroupUser) (wg dom : String) (wsid? : Option String) :
    (remove_users_from_workspace_group s user_ids old_users wg dom wsid?).2.groups =
      s.groups := by
  unfold remove_users_from_workspace_group
  cases wsid? with
  | none => exact recompute_fold_groups _ dom _
  | some wsid =>
    simp only
    split
    · rfl
    · rfl

theorem remove_users_from_workspace_group_bindings (s : DbState) (user_ids : List String)
    (old_users : List WorkspaceGroupUser) (wg dom : String) (wsid? : Option String) :
    (remove_users_from_workspace_group s user_ids old_users wg dom wsid?).2.role_bindings =
      kept_role_bindings s.role_bindings user_ids wg dom := by
  unfold remove_users_from_workspace_group
  cases wsid? with
  | none => exact recompute_fold_bindings _ dom _
  | some wsid =>
    simp only
    split
    · rfl
    · rfl

theorem patch_user_role_map_ids (users : List WorkspaceGroupUser) (uid rid rt : String) :
    (patch_user_role users uid rid rt).map (fun m => m.user_id) =
      users.map (fun m => m.user_id) := by
  induction users with
  | nil => rfl
  | cons u rest ih =>
    unfold patch_user_role
    by_cases h : u.user_id = uid
    · simp [h]
    · simp [h, ih]

/-- A successful `add_users` call found the group, found no incoming id among
the current members, and replaced the group's member list with the old
entries followed by the freshly recorded entries. -/
theorem add_users_ok_inv (s : DbState) (wg dom : String) (users : List AddUserInput)
    (s' : DbState) (g : WorkspaceGroup)
    (hfg : find_workspace_group s wg dom = some g)
    (hok : add_users s wg dom users = .ok s') :
    (¬∃ x ∈ dedup_ids (users.map (fun u => u.user_id)),
        x ∈ dedup_ids (g.users.map (fun m => m.user_id))) ∧
    ∃ rm : List (String × String),
      find_workspace_group s' wg dom = some { g with users :=
        g.users ++ (add_users_to_workspace_group users rm
          (get_workspace_ids s wg dom) wg dom).1 } ∧
      s'.workspaces = s.workspaces := by
  unfold add_users get_unique_user_ids at hok
  rw [hfg] at hok
  simp only at hok
  unfold check_new_users_already_in_workspace_group at hok
  by_cases hconf : ∃ x ∈ dedup_ids (users.map (fun u => u.user_id)),
      x ∈ dedup_ids (g.users.map (fun m => m.user_id))
  · rw [if_pos hconf] at hok
    exact Except.noConfusion hok
  · rw [if_neg hconf] at hok
    simp only at hok
    refine ⟨hconf, ?_⟩
    unfold check_new_users_exist_in_domain at hok
    by_cases hex : (filter_users s (dedup_ids (users.map (fun u => u.user_id))) dom).length =
        (dedup_ids (users.map (fun u => u.user_id))).length
    · rw [if_pos hex] at hok
      simp only at hok
      cases hrm : get_role_map s users dom with
      | error e =>
        rw [hrm] at hok
        exact Except.noConfusion hok
      | ok rm =>
        rw [hrm] at hok
        simp only at hok
        refine ⟨rm, ?_⟩
        cases hen : add_user_name_and_state_to_users
            (update_workspace_group_users
              { (if get_workspace_ids s wg dom ≠ [] then
                  delete_workspace_users_role_binding s
                    (dedup_ids (users.map (fun u => u.user_id)))
                    (get_workspace_ids s wg dom) dom
                 else s) with
                role_bindings :=
                  (if get_workspace_ids s wg dom ≠ [] then
                    delete_workspace_users_role_binding s
                      (dedup_ids (users.map (fun u => u.user_id)))
                      (get_workspace_ids s wg dom) dom
                   else s).role_bindings ++
                  (add_users_to_workspace_group users rm
                    (get_workspace_ids s wg dom) wg dom).2 }
              wg dom
              (g.users ++
                (add_users_to_workspace_group users rm
                  (get_workspace_ids s wg dom) wg dom).1))
            (dedup_ids (g.users.map (fun m => m.user_id)) ++
              dedup_ids (users.map (fun u => u.user_id)))
            { g with users :=
                g.users ++
                  (add_users_to_workspace_group users rm
                    (get_workspace_ids s wg dom) wg dom).1 }
            dom with
        | none =>
          rw [hen] at hok
          exact Except.noConfusion hok
        | some enr =>
          rw [hen] at hok
          simp only at hok
          injection hok with hs'
          subst hs'
          constructor
          · rw [find_workspace_group_update]
            have hgro : ({ (if get_workspace_ids s wg dom ≠ [] then
                  delete_workspace_users_role_binding s
                    (dedup_ids (users.map (fun u => u.user_id)))
                    (get_workspace_ids s wg dom) dom
                 else s) with
                role_bindings :=
                  (if get_workspace_ids s wg dom ≠ [] then
                    delete_workspace_users_role_binding s
                      (dedup_ids (users.map (fun u => u.user_id)))
                      (get_workspace_ids s wg dom) dom
                   else s).role_bindings ++
                  (add_users_to_workspace_group users rm
                    (get_workspace_ids s wg dom) wg dom).2 } : DbState).groups = s.groups := by
              split <;> rfl
            rw [find_workspace_group_groups_eq _ s wg dom hgro, hfg]
            rfl
          · unfold update_workspace_group_users
            simp only
            split <;> rfl
    · rw [if_neg hex] at hok
      exact Except.noConfusion hok

theorem add_users_group_missing (s : DbState) (wg dom : String) (users : List AddUserInput)
    (hfg : find_workspace_group s wg dom = none) :
    add_users s wg dom users = .error (.notFound, s) := by
  unfold add_users get_unique_user_ids
  rw [hfg]

theorem remove_users_group_missing (s : DbState) (wg dom : String) (ids : List String)
    (wsid? : Option String) (hfg : find_workspace_group s wg dom = none) :
    remove_users s wg dom ids wsid? = .error (.notFound, s) := by
  unfold remove_users get_unique_user_ids
  rw [hfg]

theorem update_role_group_missing (s : DbState) (wg dom uid rid : String)
    (hfg : find_workspace_group s wg dom = none) :
    update_role s wg dom uid rid = .error (.notFound, s) := by
  unfold update_role
  rw [hfg]

/-- A successful `remove_users` call found the group, and replaced the
group's member list with the old entries minus the targets, and swept the
targets' group-owned bindings. -/
theorem remove_users_ok_inv (s : DbState) (wg dom : String) (ids : List String)
    (wsid? : Option String) (s' : DbState) (g : WorkspaceGroup)
    (hfg : find_workspace_group s wg dom = some g)
    (hok : remove_users s wg dom ids wsid? = .ok s') :
    find_workspace_group s' wg dom = some { g with users :=
      (g.users.filter (fun u => decide (u.user_id ∉ dedup_ids ids))) } ∧
    s'.role_bindings = kept_role_bindings s.role_bindings (dedup_ids ids) wg dom := by
  unfold remove_users get_unique_user_ids at hok
  rw [hfg] at hok
  simp only at hok
  unfold check_user_ids_exist_in_workspace_group at hok
  by_cases hmem : ∃ x ∈ dedup_ids ids, x ∉ dedup_ids (g.users.map (fun m => m.user_id))
  · rw [if_pos hmem] at hok
    exact Except.noConfusion hok
  · rw [if_neg hmem] at hok
    simp only at hok
    injection hok with hs'
    subst hs'
    constructor
    · rw [find_workspace_group_update]
      rw [find_workspace_group_groups_eq _ s wg dom
        (remove_users_from_workspace_group_groups s (dedup_ids ids) g.users wg dom wsid?),
        hfg]
      rfl
    · exact remove_users_from_workspace_group_bindings s (dedup_ids ids) g.users wg dom wsid?

/-- A successful `update_role` call found the group and replaced the group's
member list with the first-match patch of the resolved role. -/
theorem update_role_ok_inv (s : DbState) (wg dom uid rid : String) (s' : DbState)
    (g : WorkspaceGroup) (hfg : find_workspace_group s wg dom = some g)
    (hok : update_role s wg dom uid rid = .ok s') :
    ∃ rt : String, find_workspace_group s' wg dom =
      some { g with users := patch_user_role g.users uid rid rt } := by
  unfold update_role at hok
  rw [hfg] at hok
  simp only at hok
  cases hu : find_user s uid dom with
  | none =>
    rw [hu] at hok
    exact Except.noConfusion hok
  | some u =>
    rw [hu] at hok
    simp only at hok
    by_cases hst : user_state_not_allowed u.state = true
    · rw [if_pos hst] at hok
      exact Except.noConfusion hok
    · rw [if_neg hst] at hok
      cases hr : find_role s rid dom with
      | none =>
        rw [hr] at hok
        exact Except.noConfusion hok
      | some role =>
        rw [hr] at hok
        simp only at hok
        by_cases hrt : role_type_not_allowed role.role_type = true
        · rw [if_pos hrt] at hok
          exact Except.noConfusion hok
        · rw [if_neg hrt] at hok
          injection hok with hs'
          subst hs'
          refine ⟨role.role_type, ?_⟩
          rw [find_workspace_group_update]
          have hgro : (update_user_role_of_workspace_group s rid role.role_type uid wg
            dom).groups = s.groups := rfl
          rw [find_workspace_group_groups_eq _ s wg dom hgro, hfg]
          rfl

theorem add_users_preserves_nodup (s : DbState) (wg dom : String)
    (users : List AddUserInput) (s' : DbState)
    (hok : add_users s wg dom users = .ok s')
    (hnd : ∀ g, find_workspace_group s wg dom = some g →
      (g.users.map (fun m => m.user_id)).Nodup) :
    ∀ g', find_workspace_group s' wg dom = some g' →
      (g'.users.map (fun m => m.user_id)).Nodup := by
  intro g' hg'
  cases hfg : find_workspace_group s wg dom with
  | none =>
    rw [add_users_group_missing s wg dom users hfg] at hok
    exact Except.noConfusion hok
  | some g =>
    obtain ⟨hconf, rm, hfind', _⟩ := add_users_ok_inv s wg dom users s' g hfg hok
    rw [hfind'] at hg'
    injection hg' with hgeq
    subst hgeq
    show ((g.users ++ (add_users_to_workspace_group users rm
      (get_workspace_ids s wg dom) wg dom).1).map (fun m => m.user_id)).Nodup
    rw [List.map_append]
    refine (hnd g hfg).append
      (add_users_to_workspace_group_ids users rm _ wg dom).1 ?_
    intro x hxold hxnew
    have hxin := (add_users_to_workspace_group_ids users rm _ wg dom).2 x hxnew
    exact hconf ⟨x, (mem_dedup_ids x _).mpr hxin, (mem_dedup_ids x _).mpr hxold⟩

theorem remove_users_preserves_nodup (s : DbState) (wg dom : String) (ids : List String)
    (wsid? : Option String) (s' : DbState)
    (hok : remove_users s wg dom ids wsid? = .ok s')
    (hnd : ∀ g, find_workspace_group s wg dom = some g →
      (g.users.map (fun m => m.user_id)).Nodup) :
    ∀ g', find_workspace_group s' wg dom = some g' →
      (g'.users.map (fun m => m.user_id)).Nodup := by
  intro g' hg'
  cases hfg : find_workspace_group s wg dom with
  | none =>
    rw [remove_users_group_missing s wg dom ids wsid? hfg] at hok
    exact Except.noConfusion hok
  | some g =>
    obtain ⟨hfind', _⟩ := remove_users_ok_inv s wg dom ids wsid? s' g hfg hok
    rw [hfind'] at hg'
    injection hg' with hgeq
    subst hgeq
    show ((g.users.filter (fun u => decide (u.user_id ∉ dedup_ids ids))).map
      (fun m => m.user_id)).Nodup
    exact (hnd g hfg).sublist ((List.filter_sublist g.users).map (fun m => m.user_id))

theorem update_role_preserves_nodup (s : DbState) (wg dom uid rid : String) (s' : DbState)
    (hok : update_role s wg dom uid rid = .ok s')
    (hnd : ∀ g, find_workspace_group s wg dom = some g →
      (g.users.map (fun m => m.user_id)).Nodup) :
    ∀ g', find_workspace_group s' wg dom = some g' →
      (g'.users.map (fun m => m.user_id)).Nodup := by
  intro g' hg'
  cases hfg : find_workspace_group s wg dom with
  | none =>
    rw [update_role_group_missing s wg dom uid rid hfg] at hok
    exact Except.noConfusion hok
  | some g =>
    obtain ⟨rt, hfind'⟩ := update_role_ok_inv s wg dom uid rid s' g hfg hok
    rw [hfind'] at hg'
    injection hg' with hgeq
    subst hgeq
    show ((patch_user_role g.users uid rid rt).map (fun m => m.user_id)).Nodup
    rw [patch_user_role_map_ids]
    exact hnd g hfg

theorem run_ops_preserves_nodup (wg dom : String) (ops : List GroupOp) :
    ∀ s s' : DbState, run_ops s wg dom ops = .ok s' →
      (∀ g, find_workspace_group s wg dom = some g →
        (g.users.map (fun m => m.user_id)).Nodup) →
      ∀ g', find_workspace_group s' wg dom = some g' →
        (g'.users.map (fun m => m.user_id)).Nodup := by
  induction ops with
  | nil =>
    intro s s' hrun hnd g' hg'
    unfold run_ops at hrun
    injection hrun with hs'
    subst hs'
    exact hnd g' hg'
  | cons op rest ih =>
    intro s s' hrun hnd g' hg'
    unfold run_ops at hrun
    cases happ : apply_op s wg dom op with
    | error e =>
      rw [happ] at hrun
      exact Except.noConfusion hrun
    | ok s1 =>
      rw [happ] at hrun
      refine ih s1 s' hrun ?_ g' hg'
      cases op with
      | addOp users => exact add_users_preserves_nodup s wg dom users s1 happ hnd
      | removeOp ids wsid? => exact remove_users_preserves_nodup s wg dom ids wsid? s1 happ hnd
      | updateRoleOp uid rid => exact update_role_preserves_nodup s wg dom uid rid s1 happ hnd

theorem patch_user_role_not_mem (users : List WorkspaceGroupUser) (uid rid rt : String)
    (h : uid ∉ users.map (fun m => m.user_id)) :
    patch_user_role users uid rid rt = users := by
  induction users with
  | nil => rfl
  | cons u rest ih =>
    rw [List.map_cons, List.mem_cons] at h
    push_neg at h
    unfold patch_user_role
    rw [if_neg (fun he => h.1 he.symm), ih h.2]

/-- C7: every update-role call targeting a user whose directory state is
DISABLED or DELETED fails with NotAllowedUserState and performs no mutation:
the state carried by the error is exactly the input state, so no role-binding
was updated and the group's member list is unchanged. -/
theorem update_role_disabled_user_gate (s : DbState) (wg dom uid rid : String)
    (g : WorkspaceGroup) (u : DirectoryUser)
    (hg : find_workspace_group s wg dom = some g)
    (hu : find_user s uid dom = some u)
    (hstate : u.state = "DISABLED" ∨ u.state = "DELETED") :
    update_role s wg dom uid rid = .error (.notAllowedUserState, s) := by
  unfold update_role
  rw [hg]
  simp only
  rw [hu]
  simp only
  have hst : user_state_not_allowed u.state = true := by
    unfold user_state_not_allowed
    exact decide_eq_true hstate
  rw [if_pos hst]

/-- C8: an add-users call that completes leaves every workspace record — in
particular every `user_count` — unchanged; the add flow never touches the
workspace store. -/
theorem add_users_frames_workspaces (s : DbState) (wg dom : String)
    (users : List AddUserInput) (s' : DbState)
    (hok : add_users s wg dom users = .ok s') :
    s'.workspaces = s.workspaces := by
  cases hfg : find_workspace_group s wg dom with
  | none =>
    rw [add_users_group_missing s wg dom users hfg] at hok
    exact Except.noConfusion hok
  | some g =>
    obtain ⟨_, _, _, hws⟩ := add_users_ok_inv s wg dom users s' g hfg hok
    exact hws

/-- C9: on a group whose member list is empty, the enrichment step produces
no result (`None`), so the get operation fails building the response with a
`TypeError` instead of returning the group with an empty member list. -/
theorem get_empty_member_list_fails (s : DbState) (wg dom : String) (g : WorkspaceGroup)
    (hg : find_workspace_group s wg dom = some g) (hempty : g.users = []) :
    add_user_name_and_state_to_users s [] g dom = none ∧
    get_workspace_group_info s wg dom = .error .typeError := by
  constructor
  · unfold add_user_name_and_state_to_users
    simp [hempty]
  · unfold get_workspace_group_info
    rw [hg]
    simp only
    rw [if_neg (by simp [hempty])]
    simp only
    unfold add_user_name_and_state_to_users
    simp [hempty]

/-- C10: an update-role call for an existing user in an allowed state with an
acceptable role, where the user is not a member of the group and holds no
group-owned role-binding, raises no error: it completes, patches nothing, and
writes the group back with its member list unchanged. -/
theorem update_role_nonmember_completes (s : DbState) (wg dom uid rid : String)
    (g : WorkspaceGroup) (u : DirectoryUser) (role : Role)
    (hg : find_workspace_group s wg dom = some g)
    (hu : find_user s uid dom = some u)
    (hstate : ¬(u.state = "DISABLED" ∨ u.state = "DELETED"))
    (hr : find_role s rid dom = some role)
    (hrt : role.role_type = "WORKSPACE_OWNER" ∨ role.role_type = "WORKSPACE_MEMBER")
    (hnm : uid ∉ g.users.map (fun m => m.user_id))
    (hnb : group_owned_bindings_for s uid wg dom = []) :
    update_role s wg dom uid rid = .ok (update_workspace_group_users s wg dom g.users) := by
  unfold update_role
  rw [hg]
  simp only
  rw [hu]
  simp only
  have hst : ¬(user_state_not_allowed u.state = true) := by
    unfold user_state_not_allowed
    simpa using hstate
  rw [if_neg hst, hr]
  simp only
  have hrt' : ¬(role_type_not_allowed role.role_type = true) := by
    unfold role_type_not_allowed
    simp only [decide_eq_true_eq, not_not]
    exact hrt
  rw [if_neg hrt']
  have hmap : s.role_bindings.map (fun b =>
      if b.user_id = uid ∧ b.workspace_group_id = some wg ∧ b.domain_id = dom then
        { b with role_id := rid, role_type := role.role_type } else b) =
      s.role_bindings := by
    have h1 : ∀ b ∈ s.role_bindings,
        (if b.user_id = uid ∧ b.workspace_group_id = some wg ∧ b.domain_id = dom then
          { b with role_id := rid, role_type := role.role_type } else b) = b := by
      intro b hb
      refine if_neg (fun hc => ?_)
      have := List.filter_eq_nil_iff.mp hnb b hb
      simp only [decide_eq_true_eq] at this
      exact this hc
    rw [List.map_congr_left h1]
    exact List.map_id' s.role_bindings
  have hs1 : update_user_role_of_workspace_group s rid role.role_type uid wg dom = s := by
    unfold update_user_role_of_workspace_group
    rw [hmap]
  rw [hs1, patch_user_role_not_mem g.users uid rid role.role_type hnm]

/-!  ## Concrete scenarios  -/

/-- A group with no members yet. -/
def gEmpty : WorkspaceGroup := { workspace_group_id := "wg1", domain_id := "d1", users := [] }

/-- Domain `d1`: group `wg1` (no members) with two workspaces `ws1`, `ws2`;
an enabled user `u1`, a disabled user `u3`; an owner role `r1` and a member
role `r2`; no role-bindings. -/
def sTwoWs : DbState :=
  { groups := [gEmpty],
    role_bindings := [],
    workspaces :=
      [{ workspace_id := "ws1", domain_id := "d1", workspace_group_id := some "wg1",
         user_count := 0 },
       { workspace_id := "ws2", domain_id := "d1", workspace_group_id := some "wg1",
         user_count := 0 }],
    dir_users :=
      [{ user_id := "u1", domain_id := "d1", name := "name one", state := "ENABLED" },
       { user_id := "u3", domain_id := "d1", name := "name three", state := "DISABLED" }],
    roles :=
      [{ role_id := "r1", domain_id := "d1", role_type := "WORKSPACE_OWNER" },
       { role_id := "r2", domain_id := "d1", role_type := "WORKSPACE_MEMBER" }] }

/-- The group record after `u1` was added. -/
def gAfterAdd : WorkspaceGroup :=
  { workspace_group_id := "wg1", domain_id := "d1",
    users := [{ user_id := "u1", role_id := "r1", role_type := "WORKSPACE_OWNER" }] }

/-- The state `add_users sTwoWs "wg1" "d1" [(u1, r1)]` produces. -/
def sTwoWsAfterAdd : DbState :=
  { groups := [gAfterAdd],
    role_bindings :=
      [{ user_id := "u1", role_id := "r1", role_type := "WORKSPACE_OWNER",
         resource_group := "WORKSPACE", workspace_group_id := some "wg1",
         workspace_id := "ws1", domain_id := "d1" }],
    workspaces := sTwoWs.workspaces,
    dir_users := sTwoWs.dir_users,
    roles := sTwoWs.roles }

/-- C1 (evidence of the divergence): group `wg1` has the two workspaces
`ws1` and `ws2`, yet adding the single new user `u1` with role `r1` completes
with exactly ONE group-owned role-binding for `u1`, in `ws1` only — the
`unique_user_ids` guard inside `add_user` skips the user on every workspace
after the first, so no `(u1, ws2)` binding is created. -/
theorem add_users_fanout_only_first_workspace :
    get_workspace_ids sTwoWs "wg1" "d1" = ["ws1", "ws2"] ∧
    (add_users sTwoWs "wg1" "d1" [{ user_id := "u1", role_id := "r1" }]).toOption.map
      (fun s2 => (group_owned_bindings_for s2 "u1" "wg1" "d1").map
        (fun b => b.workspace_id)) = some ["ws1"] := by
  constructor
  · rfl
  · rfl

/-- C2 (counterexample): with input `[(u1, r1), (u1, r2)]` the member entry
recorded for `u1` carries the FIRST occurrence's role `r1`, not the last
occurrence's role `r2` as the claim states. -/
theorem add_users_duplicate_input_counterexample :
    ((add_users sTwoWs "wg1" "d1"
        [{ user_id := "u1", role_id := "r1" },
         { user_id := "u1", role_id := "r2" }]).toOption.bind
      (fun s2 => (find_workspace_group s2 "wg1" "d1").map (fun g => g.users)))
      = some [{ user_id := "u1", role_id := "r1", role_type := "WORKSPACE_OWNER" }] ∧
    ¬(((add_users sTwoWs "wg1" "d1"
        [{ user_id := "u1", role_id := "r1" },
         { user_id := "u1", role_id := "r2" }]).toOption.bind
      (fun s2 => (find_workspace_group s2 "wg1" "d1").map (fun g => g.users)))
      = some [{ user_id := "u1", role_id := "r2", role_type := "WORKSPACE_MEMBER" }]) := by
  constructor
  · rfl
  · decide

theorem add_user_rbs_none (rm : List (String × String)) (wg dom : String) (acc : AddAcc)
    (ui : AddUserInput) : (add_user rm wg dom acc ui none).rbs = acc.rbs := by
  by_cases hm : ui.user_id ∈ acc.uniq
  · rw [add_user_skip rm wg dom acc ui none hm]
  · unfold add_user
    simp [hm]

theorem add_user_rbs_of_not_mem (rm : List (String × String)) (wg dom : String)
    (acc : AddAcc) (ui : AddUserInput) (w : String) (h : ui.user_id ∉ acc.uniq) :
    (add_user rm wg dom acc ui (some w)).rbs =
      acc.rbs ++ [create_role_binding ui.user_id ui.role_id
        ((rm.lookup ui.role_id).getD "") wg w dom] := by
  unfold add_user
  simp [h]

theorem add_user_pass_rbs_none (rm : List (String × String)) (wg dom : String)
    (users : List AddUserInput) :
    ∀ acc : AddAcc, (add_user_pass rm wg dom users none acc).rbs = acc.rbs := by
  induction users with
  | nil => intro acc; rfl
  | cons u us ih =>
    intro acc
    rw [add_user_pass_cons, ih, add_user_rbs_none]

/-- Within one pass over one workspace, the created binding rows are exactly
the recorded member entries mapped into binding rows for that workspace: each
binding echoes its entry's user id, role id and role type. -/
theorem add_user_pass_rbs_eq (rm : List (String × String)) (wg dom : String)
    (users : List AddUserInput) (w : String) :
    ∀ acc : AddAcc,
      acc.rbs = acc.infos.map (fun m =>
        create_role_binding m.user_id m.role_id m.role_type wg w dom) →
      (add_user_pass rm wg dom users (some w) acc).rbs =
        (add_user_pass rm wg dom users (some w) acc).infos.map (fun m =>
          create_role_binding m.user_id m.role_id m.role_type wg w dom) := by
  induction users with
  | nil => intro acc h; exact h
  | cons u us ih =>
    intro acc h
    rw [add_user_pass_cons]
    refine ih _ ?_
    by_cases hm : u.user_id ∈ acc.uniq
    · rw [add_user_skip rm wg dom acc u (some w) hm]
      exact h
    · rw [add_user_rbs_of_not_mem rm wg dom acc u w hm,
        (add_user_infos_of_not_mem rm wg dom acc u (some w) hm).1,
        List.map_append, h]
      simp [mk_member, create_role_binding]

/-- C2 (amended): when the same `user_id` occurs more than once in the
add-users input, the member entry recorded for it is the one from the FIRST
occurrence of that `user_id` (later occurrences are skipped by the
`unique_user_ids` guard), and the role-binding rows created are exactly the
recorded entries mapped into the group's first workspace — so every binding
created for that `user_id` carries the first occurrence's role id and role
type. -/
theorem add_users_to_workspace_group_first_occurrence_wins
    (users : List AddUserInput) (rm : List (String × String)) (ws_ids : List String)
    (wg dom uid : String) :
    ((add_users_to_workspace_group users rm ws_ids wg dom).1).find?
        (fun m => decide (m.user_id = uid)) =
      (users.find? (fun u => decide (u.user_id = uid))).map (mk_member rm) ∧
    (add_users_to_workspace_group users rm ws_ids wg dom).2 =
      (match ws_ids with
       | [] => []
       | w :: _ => (add_users_to_workspace_group users rm ws_ids wg dom).1.map
           (fun m => create_role_binding m.user_id m.role_id m.role_type wg w dom)) := by
  have hwf : ({ infos := [], uniq := [], rbs := [] } : AddAcc).wf := rfl
  constructor
  · cases ws_ids with
    | nil =>
      rw [add_users_to_workspace_group_nil]
      simp only
      rw [add_user_pass_find rm wg dom uid users none _ hwf]
      simp
    | cons w rest =>
      rw [add_users_to_workspace_group_cons]
      simp only
      rw [add_user_pass_find rm wg dom uid users (some w) _ hwf]
      simp
  · cases ws_ids with
    | nil =>
      rw [add_users_to_workspace_group_nil]
      simp only
      exact add_user_pass_rbs_none rm wg dom users _
    | cons w rest =>
      rw [add_users_to_workspace_group_cons]
      simp only
      exact add_user_pass_rbs_eq rm wg dom users w _ rfl

/-- Witness for C7 at a concrete input: updating disabled user `u3` fails
with NotAllowedUserState and leaves the state untouched. -/
theorem update_role_disabled_user_gate_witness :
    update_role sTwoWs "wg1" "d1" "u3" "r1" = .error (.notAllowedUserState, sTwoWs) :=
  update_role_disabled_user_gate sTwoWs "wg1" "d1" "u3" "r1" gEmpty
    { user_id := "u3", domain_id := "d1", name := "name three", state := "DISABLED" }
    (by decide) (by decide) (by decide)

/-- Witness for C8 at a concrete input: the add leaves the workspace store
unchanged. -/
theorem add_users_frames_workspaces_witness :
    sTwoWsAfterAdd.workspaces = sTwoWs.workspaces :=
  add_users_frames_workspaces sTwoWs "wg1" "d1" [{ user_id := "u1", role_id := "r1" }]
    sTwoWsAfterAdd rfl

/-- Witness for C9 at a concrete input: get on the member-less group `wg1`
fails with the response-construction TypeError. -/
theorem get_empty_member_list_fails_witness :
    add_user_name_and_state_to_users sTwoWs [] gEmpty "d1" = none ∧
    get_workspace_group_info sTwoWs "wg1" "d1" = .error .typeError :=
  get_empty_member_list_fails sTwoWs "wg1" "d1" gEmpty (by decide) (by decide)

/-- Witness for C10 at a concrete input: updating the role of `u1`, who is
not a member of `wg1`, completes and writes the member list back unchanged. -/
theorem update_role_nonmember_completes_witness :
    update_role sTwoWs "wg1" "d1" "u1" "r1" =
      .ok (update_workspace_group_users sTwoWs "wg1" "d1" gEmpty.users) :=
  update_role_nonmember_completes sTwoWs "wg1" "d1" "u1" "r1" gEmpty
    { user_id := "u1", domain_id := "d1", name := "name one", state := "ENABLED" }
    { role_id := "r1", domain_id := "d1", role_type := "WORKSPACE_OWNER" }
    (by decide) (by decide) (by decide) (by decide) (by decide) (by decide) (by decide)

/-- C3: for a group whose member ids are pairwise distinct, after any
sequence of add-users / remove-users / update-role operations that completes
without error, the member ids of the group are still pairwise distinct (the
number of distinct ids equals the list length). -/
theorem member_ids_nodup_invariant (s : DbState) (wg dom : String) (ops : List GroupOp)
    (g g' : WorkspaceGroup) (s' : DbState)
    (hg : find_workspace_group s wg dom = some g)
    (hnd : (g.users.map (fun m => m.user_id)).Nodup)
    (hrun : run_ops s wg dom ops = .ok s')
    (hg' : find_workspace_group s' wg dom = some g') :
    (g'.users.map (fun m => m.user_id)).Nodup :=
  run_ops_preserves_nodup wg dom ops s s' hrun
    (fun g0 h0 => by rw [hg] at h0; injection h0 with he; exact he ▸ hnd) g' hg'

/-- The group of the round-trip scenario: sole member `u2`. -/
def gRT : WorkspaceGroup :=
  { workspace_group_id := "wg1", domain_id := "d1",
    users := [{ user_id := "u2", role_id := "r1", role_type := "WORKSPACE_OWNER" }] }

/-- Round-trip scenario: group `wg1` with member `u2`, one workspace `ws1`
holding `u2`'s binding, users `u1` and `u2`, owner role `r1`. -/
def sRT : DbState :=
  { groups := [gRT],
    role_bindings :=
      [{ user_id := "u2", role_id := "r1", role_type := "WORKSPACE_OWNER",
         resource_group := "WORKSPACE", workspace_group_id := some "wg1",
         workspace_id := "ws1", domain_id := "d1" }],
    workspaces :=
      [{ workspace_id := "ws1", domain_id := "d1", workspace_group_id := some "wg1",
         user_count := 1 }],
    dir_users :=
      [{ user_id := "u1", domain_id := "d1", name := "n1", state := "ENABLED" },
       { user_id := "u2", domain_id := "d1", name := "n2", state := "ENABLED" }],
    roles := [{ role_id := "r1", domain_id := "d1", role_type := "WORKSPACE_OWNER" }] }

/-- Witness for C3 at a concrete input: after adding `u1` and removing `u1`
again on `sRT`, the member ids of `wg1` are still distinct. -/
theorem member_ids_nodup_invariant_witness :
    (gRT.users.map (fun m => m.user_id)).Nodup :=
  member_ids_nodup_invariant sRT "wg1" "d1"
    [.addOp [{ user_id := "u1", role_id := "r1" }], .removeOp ["u1"] none]
    gRT gRT sRT (by decide) (by decide) rfl (by decide)

/-- C4: for a group not containing `u1`, with `u1` holding no binding in any
of the group's workspaces, adding `(u1, r1)` and then removing `u1` restores
the member list to its pre-add value and leaves no group-owned role-binding
for `u1` (bindings fully cleared, not just the membership entry). -/
theorem add_then_remove_round_trip (s : DbState) (wg dom u1 r1 : String)
    (wsid? : Option String) (s' : DbState) (g : WorkspaceGroup)
    (hg : find_workspace_group s wg dom = some g)
    (hnm : u1 ∉ g.users.map (fun m => m.user_id))
    (hnb : s.role_bindings.filter (fun b =>
      decide (b.user_id = u1 ∧ b.workspace_id ∈ get_workspace_ids s wg dom)) = [])
    (hrun : run_ops s wg dom
      [.addOp [{ user_id := u1, role_id := r1 }], .removeOp [u1] wsid?] = .ok s') :
    (find_workspace_group s' wg dom).map (fun g2 => g2.users) = some g.users ∧
    group_owned_bindings_for s' u1 wg dom = [] := by
  unfold run_ops apply_op at hrun
  simp only at hrun
  cases happ : add_users s wg dom [{ user_id := u1, role_id := r1 }] with
  | error e =>
    rw [happ] at hrun
    exact Except.noConfusion hrun
  | ok s1 =>
    rw [happ] at hrun
    unfold run_ops apply_op at hrun
    simp only at hrun
    cases hrem : remove_users s1 wg dom [u1] wsid? with
    | error e =>
      rw [hrem] at hrun
      exact Except.noConfusion hrun
    | ok s2 =>
      rw [hrem] at hrun
      simp only at hrun
      injection hrun with hs'
      subst hs'
      obtain ⟨hconf, rm, hfind1, hws1⟩ := add_users_ok_inv s wg dom _ s1 g hg happ
      obtain ⟨hfind2, hbind2⟩ := remove_users_ok_inv s1 wg dom [u1] wsid? s2 _ hfind1 hrem
      constructor
      · have h_old : g.users.filter (fun u => decide (u.user_id ∉ dedup_ids [u1])) =
            g.users := by
          refine List.filter_eq_self.mpr (fun u hu => ?_)
          simp only [decide_eq_true_eq, dedup_ids, List.filter_nil, List.mem_singleton]
          exact fun he => hnm (he ▸ List.mem_map_of_mem (fun m => m.user_id) hu)
        have h_new : ((add_users_to_workspace_group
            [{ user_id := u1, role_id := r1 }] rm (get_workspace_ids s wg dom) wg dom).1).filter
            (fun u => decide (u.user_id ∉ dedup_ids [u1])) = [] := by
          refine List.filter_eq_nil_iff.mpr (fun m hm => ?_)
          have hmid := (add_users_to_workspace_group_ids
            [{ user_id := u1, role_id := r1 }] rm (get_workspace_ids s wg dom) wg dom).2
            m.user_id (List.mem_map_of_mem (fun m => m.user_id) hm)
          simp only [List.map_cons, List.map_nil, List.mem_singleton] at hmid
          simp [dedup_ids, hmid]
        have hfilter : (g.users ++ (add_users_to_workspace_group
            [{ user_id := u1, role_id := r1 }] rm (get_workspace_ids s wg dom) wg dom).1).filter
            (fun u => decide (u.user_id ∉ dedup_ids [u1])) = g.users := by
          rw [List.filter_append, h_old, h_new, List.append_nil]
        rw [hfind2]
        exact congrArg some hfilter
      · unfold group_owned_bindings_for
        rw [hbind2]
        unfold kept_role_bindings
        refine List.filter_eq_nil_iff.mpr (fun b hb => ?_)
        rw [List.mem_filter] at hb
        simp only [decide_eq_true_eq] at hb ⊢
        intro hc
        exact hb.2 ⟨by simp [dedup_ids, hc.1], hc.2.1, hc.2.2⟩

/-- Witness for C4 at a concrete input: on `sRT` the add/remove pair for
`u1` returns the state to exactly `sRT`. -/
theorem add_then_remove_round_trip_witness :
    (find_workspace_group sRT "wg1" "d1").map (fun g2 => g2.users) = some gRT.users ∧
    group_owned_bindings_for sRT "u1" "wg1" "d1" = [] :=
  add_then_remove_round_trip sRT "wg1" "d1" "u1" "r1" none sRT gRT
    (by decide) (by decide) (by decide) rfl

/-- C5: whatever the optional workspace argument is, the removal flow deletes
exactly the role-bindings whose user is among the targets, whose
`workspace_group_id` is this group and whose domain matches — a group-wide
sweep, never limited to one workspace. -/
theorem remove_users_binding_sweep_group_wide (s : DbState) (user_ids : List String)
    (old_users : List WorkspaceGroupUser) (wg dom : String) (wsid? : Option String) :
    (remove_users_from_workspace_group s user_ids old_users wg dom wsid?).2.role_bindings =
      s.role_bindings.filter (fun b =>
        decide (¬(b.user_id ∈ user_ids ∧ b.workspace_group_id = some wg ∧
          b.domain_id = dom))) :=
  remove_users_from_workspace_group_bindings s user_ids old_users wg dom wsid?

/-!  ## The user-count recompute loop as a pointwise map  -/

theorem recompute_fold_workspaces (dom : String) (B : List RoleBinding) :
    ∀ (ts : List Workspace) (st : DbState), st.role_bindings = B →
      (ts.foldl (fun st w => update_workspace_by_vo st w.workspace_id dom
        (distinct_user_rb_ids st.role_bindings w.workspace_id dom).length) st).workspaces =
      ts.foldl (fun l w => l.map (ws_set_count w.workspace_id dom
        (distinct_user_rb_ids B w.workspace_id dom).length)) st.workspaces := by
  intro ts
  induction ts with
  | nil => intro st _; rfl
  | cons w ts ih =>
    intro st h
    rw [List.foldl_cons, List.foldl_cons]
    rw [ih _ (by rw [update_workspace_by_vo_bindings]; exact h)]
    rw [h]
    rfl

theorem foldl_map_comm {α β : Type} (f : β → α → α) :
    ∀ (ts : List β) (L : List α),
      ts.foldl (fun l t => l.map (f t)) L = L.map (fun x => ts.foldl (fun a t => f t a) x) := by
  intro ts
  induction ts with
  | nil => intro L; simp
  | cons t ts ih =>
    intro L
    rw [List.foldl_cons, ih, List.map_map]
    rfl

theorem foldl_step_id {α β : Type} (f : β → α → α) :
    ∀ (ts : List β) (x : α), (∀ t ∈ ts, f t x = x) →
      ts.foldl (fun a t => f t a) x = x := by
  intro ts
  induction ts with
  | nil => intro x _; rfl
  | cons t ts ih =>
    intro x h
    rw [List.foldl_cons, h t (by simp)]
    exact ih x (fun t' ht' => h t' (by simp [ht']))

theorem fold_set_count_pointwise (dom : String) (cnt : String → Nat) (P : Workspace → Bool)
    (hP : ∀ w, P w = true → w.domain_id = dom) (L : List Workspace)
    (hkey : (L.map (fun w => (w.workspace_id, w.domain_id))).Nodup)
    (w : Workspace) (hw : w ∈ L) :
    (L.filter P).foldl (fun a t => ws_set_count t.workspace_id dom (cnt t.workspace_id) a) w =
      if P w = true then { w with user_count := cnt w.workspace_id } else w := by
  by_cases hPw : P w = true
  · rw [if_pos hPw]
    have hwts : w ∈ L.filter P := List.mem_filter.mpr ⟨hw, hPw⟩
    obtain ⟨ts1, ts2, hsplit⟩ := List.append_of_mem hwts
    have hkeyts : ((L.filter P).map (fun w => (w.workspace_id, w.domain_id))).Nodup :=
      hkey.sublist ((List.filter_sublist L).map (fun w => (w.workspace_id, w.domain_id)))
    rw [hsplit, List.map_append, List.map_cons] at hkeyts
    obtain ⟨hn1, hn2, hdisj⟩ := List.nodup_append.mp hkeyts
    have hkey_ne : ∀ t, t ∈ ts1 ∨ t ∈ ts2 →
        ¬((w.workspace_id, w.domain_id) = (t.workspace_id, t.domain_id)) := by
      intro t ht he
      rcases ht with ht | ht
      · exact hdisj (List.mem_map_of_mem _ ht) (by rw [← he]; exact List.mem_cons_self _ _)
      · rcases List.nodup_cons.mp hn2 with ⟨hnotmem, _⟩
        exact hnotmem (by rw [he]; exact List.mem_map_of_mem _ ht)
    have hstep_id1 : ∀ t ∈ ts1,
        ws_set_count t.workspace_id dom (cnt t.workspace_id) w = w := by
      intro t ht
      refine if_neg (fun hc => ?_)
      have htfil : t ∈ L.filter P := by rw [hsplit]; exact List.mem_append_left _ ht
      have htdom : t.domain_id = dom := hP t (List.mem_filter.mp htfil).2
      exact hkey_ne t (Or.inl ht) (by rw [hc.1, hc.2, htdom])
    have hstep_id2 : ∀ t ∈ ts2,
        ws_set_count t.workspace_id dom (cnt t.workspace_id)
          { w with user_count := cnt w.workspace_id } =
          { w with user_count := cnt w.workspace_id } := by
      intro t ht
      refine if_neg (fun hc => ?_)
      have htfil : t ∈ L.filter P := by
        rw [hsplit]
        exact List.mem_append_right _ (List.mem_cons_of_mem _ ht)
      have htdom : t.domain_id = dom := hP t (List.mem_filter.mp htfil).2
      exact hkey_ne t (Or.inr ht) (by
        simp only at hc
        rw [hc.1, hc.2, htdom])
    rw [hsplit, List.foldl_append, foldl_step_id _ ts1 w hstep_id1, List.foldl_cons]
    have hself : ws_set_count w.workspace_id dom (cnt w.workspace_id) w =
        { w with user_count := cnt w.workspace_id } :=
      if_pos ⟨rfl, hP w hPw⟩
    rw [hself]
    exact foldl_step_id _ ts2 _ hstep_id2
  · rw [if_neg hPw]
    refine foldl_step_id _ (L.filter P) w (fun t ht => ?_)
    refine if_neg (fun hc => ?_)
    have htL : t ∈ L := (List.mem_filter.mp ht).1
    have htP : P t = true := (List.mem_filter.mp ht).2
    have hkeq : (fun w => (w.workspace_id, w.domain_id)) w =
        (fun w => (w.workspace_id, w.domain_id)) t := by
      simp only
      rw [hc.1, hc.2, hP t htP]
    have hwt : w = t := List.inj_on_of_nodup_map hkey hw htL hkeq
    rw [hwt] at hPw
    exact hPw htP

/-- C6: the user-count recompute of the removal flow.  With a specific
workspace id, only that workspace's rows are rewritten, to the number of
distinct user ids among the (post-sweep) bindings scoped to that workspace
and domain; with no workspace id, every workspace currently in the group is
rewritten the same way.  Workspace rows are assumed key-unique, as in the
store. -/
theorem remove_users_user_count_recompute (s : DbState) (user_ids : List String)
    (old_users : List WorkspaceGroupUser) (wg dom : String) (wsid? : Option String)
    (hkey : (s.workspaces.map (fun w => (w.workspace_id, w.domain_id))).Nodup) :
    (remove_users_from_workspace_group s user_ids old_users wg dom wsid?).2.workspaces =
      (match wsid? with
       | some wsid => s.workspaces.map (fun w =>
           if w.workspace_id = wsid ∧ w.domain_id = dom then
             { w with user_count := (distinct_user_rb_ids
                 (kept_role_bindings s.role_bindings user_ids wg dom) wsid dom).length }
           else w)
       | none => s.workspaces.map (fun w =>
           if w.workspace_group_id = some wg ∧ w.domain_id = dom then
             { w with user_count := (distinct_user_rb_ids
                 (kept_role_bindings s.role_bindings user_ids wg dom)
                   w.workspace_id dom).length }
           else w)) := by
  unfold remove_users_from_workspace_group
  cases wsid? with
  | some wsid =>
    dsimp only
    cases hf : s.workspaces.find?
        (fun w => decide (w.workspace_id = wsid ∧ w.domain_id = dom)) with
    | some w0 =>
      dsimp only [update_workspace_by_vo]
      have hp := List.find?_some hf
      simp only [decide_eq_true_eq] at hp
      rw [hp.1]
      rfl
    | none =>
      dsimp only
      have hnone := List.find?_eq_none.mp hf
      symm
      refine (List.map_congr_left fun w hw => ?_).trans (List.map_id' s.workspaces)
      refine if_neg (fun hc => ?_)
      have hns : ¬(w.workspace_id = wsid ∧ w.domain_id = dom) := by
        simpa using hnone w hw
      exact hns hc
  | none =>
    dsimp only
    rw [recompute_fold_workspaces dom
      (kept_role_bindings s.role_bindings user_ids wg dom) _ _ rfl]
    rw [foldl_map_comm (fun (t : Workspace) => ws_set_count t.workspace_id dom
      ((distinct_user_rb_ids (kept_role_bindings s.role_bindings user_ids wg dom)
        t.workspace_id dom).length))]
    refine List.map_congr_left (fun w hw => ?_)
    rw [fold_set_count_pointwise dom
      (fun wsid => (distinct_user_rb_ids
        (kept_role_bindings s.role_bindings user_ids wg dom) wsid dom).length)
      (fun w => decide (w.workspace_group_id = some wg ∧ w.domain_id = dom))
      (fun w h => (of_decide_eq_true h).2) s.workspaces hkey w hw]
    simp only [decide_eq_true_eq]

/-- The group of the sole-bound-user scenario. -/
def gC6 : WorkspaceGroup :=
  { workspace_group_id := "wg1", domain_id := "d1",
    users := [{ user_id := "u1", role_id := "r1", role_type := "WORKSPACE_OWNER" }] }

/-- Sole-bound-user scenario: `u1` is the only distinct user bound to `ws1`,
through a binding owned by group `wg1`. -/
def sC6 : DbState :=
  { groups := [gC6],
    role_bindings :=
      [{ user_id := "u1", role_id := "r1", role_type := "WORKSPACE_OWNER",
         resource_group := "WORKSPACE", workspace_group_id := some "wg1",
         workspace_id := "ws1", domain_id := "d1" }],
    workspaces :=
      [{ workspace_id := "ws1", domain_id := "d1", workspace_group_id := some "wg1",
         user_count := 1 }],
    dir_users := [{ user_id := "u1", domain_id := "d1", name := "n1", state := "ENABLED" }],
    roles := [{ role_id := "r1", domain_id := "d1", role_type := "WORKSPACE_OWNER" }] }

/-- Witness for C6 at a concrete input: removing `u1`, the sole distinct user
bound to `ws1`, with workspace id `ws1`, leaves `ws1` with `user_count` 0. -/
theorem remove_users_user_count_recompute_witness :
    (remove_users_from_workspace_group sC6 ["u1"] gC6.users "wg1" "d1"
        (some "ws1")).2.workspaces =
      sC6.workspaces.map (fun w =>
        if w.workspace_id = "ws1" ∧ w.domain_id = "d1" then
          { w with user_count := (distinct_user_rb_ids
              (kept_role_bindings sC6.role_bindings ["u1"] "wg1" "d1") "ws1" "d1").length }
        else w) ∧
    (remove_users_from_workspace_group sC6 ["u1"] gC6.users "wg1" "d1"
        (some "ws1")).2.workspaces =
      [{ workspace_id := "ws1", domain_id := "d1", workspace_group_id := some "wg1",
         user_count := 0 }] :=
  ⟨remove_users_user_count_recompute sC6 ["u1"] gC6.users "wg1" "d1" (some "ws1")
    (by decide), by decide⟩
